import Mathlib

/-!
Shallow embedding of the caching logic of `src/sw.js` (a browser service
worker): route classification, the cache-first and network-first fetch
strategies, and the install/activate cache lifecycle.

Modelling conventions:
* A `Request` carries the fields the script inspects: method, full URL,
  hostname, origin and mode.
* A `Response` is a status code plus a body; `none` from the fetch
  capability models a transport-level failure (the JS `fetch` rejecting),
  while `some resp` models a completed HTTP exchange of any status.
* The `CacheStorage` of the platform is an ordered association list from
  cache (generation) name to a cache, itself an association list from
  request identity (method, url) to the stored response snapshot.
* `caches.open` creates an empty cache when the name is absent;
  `caches.match` searches every cache in order; `cache.put` overwrites an
  existing entry for the same identity and appends otherwise — all per the
  Cache API the script calls into.
* `Cache.addAll`, used by the install handler, fetches every listed asset
  and commits the writes as one atomic batch that fails (writing nothing)
  when any fetch fails or completes with a non-ok status, per the Cache
  API specification.
-/

namespace SW

/-- A request as seen by the fetch handler of the service worker. -/
structure Request where
  method : String
  url : String
  hostname : String
  origin : String
  mode : String
  deriving DecidableEq, Repr

/-- A response snapshot: status code and body bytes. -/
structure Response where
  status : Nat
  body : String
  deriving DecidableEq, Repr

/-- Request identity used as cache key: method plus absolute URL. -/
def reqKey (r : Request) : String × String := (r.method, r.url)

/-- One named cache: an association list from request identity to snapshot. -/
abbrev Generation := List ((String × String) × Response)

/-- The whole cache storage: an ordered list of named generations. -/
abbrev Store := List (String × Generation)

/-- `CACHE_NAME` of src/sw.js line 6. -/
def CACHE_NAME : String := "quran-app-v2.0"

/-- `RUNTIME_CACHE` of src/sw.js line 7. -/
def RUNTIME_CACHE : String := "quran-runtime-v2.0"

/-- `STATIC_ASSETS` of src/sw.js lines 10-19. -/
def STATIC_ASSETS : List String :=
  ["/", "/index.html", "/styles.css", "/js/app.js", "/manifest.json",
   "/logo.png", "/splash.png", "/favicon.png"]

/-- Boolean test that `a` starts the list `b`. -/
def seqLeads : List Char → List Char → Bool
  | [], _ => true
  | _ :: _, [] => false
  | a :: as, b :: bs => (a == b) && seqLeads as bs

/-- Boolean test that `sub` occurs contiguously inside the second list. -/
def seqContains (sub : List Char) : List Char → Bool
  | [] => seqLeads sub []
  | b :: bs => seqLeads sub (b :: bs) || seqContains sub bs

/-- JS `s.includes(sub)`: `sub` occurs as a contiguous substring of `s`. -/
def includes (s sub : String) : Bool := seqContains sub.data s.data

/-- The `apiDomains` list of `isAPIRequest`, src/sw.js lines 146-151. -/
def apiDomains : List String :=
  ["api.quran.com", "api.aladhan.com", "cdn.jsdelivr.net", "api.bigdatacloud.net"]

/-- The `allowedDomains` list of `isAllowedAPI`, src/sw.js lines 160-170. -/
def allowedDomains : List String :=
  ["api.quran.com", "api.aladhan.com", "cdn.jsdelivr.net", "api.bigdatacloud.net",
   "server", ".mp3quran.net", "fonts.googleapis.com", "fonts.gstatic.com",
   "raw.githubusercontent.com"]

/-- `isAPIRequest`, src/sw.js lines 145-154: some API domain occurs in the hostname. -/
def isAPIRequest (r : Request) : Bool :=
  apiDomains.any (fun d => includes r.hostname d)

/-- `isAllowedAPI`, src/sw.js lines 159-173: some allowed domain occurs in the hostname. -/
def isAllowedAPI (r : Request) : Bool :=
  allowedDomains.any (fun d => includes r.hostname d)

/-- The routing decision of the fetch listener. -/
inductive RouteDecision where
  | ignored
  | networkFirst
  | cacheFirst
  deriving DecidableEq, Repr

/-- The dispatch logic of the fetch listener, src/sw.js lines 56-76:
skip non-GET, skip disallowed cross-origin, network-first for API hosts,
cache-first otherwise. -/
def classify (selfOrigin : String) (r : Request) : RouteDecision :=
  if r.method ≠ "GET" then .ignored
  else if r.origin ≠ selfOrigin ∧ isAllowedAPI r = false then .ignored
  else if isAPIRequest r then .networkFirst
  else .cacheFirst

/-- `cache.match(request)`: first stored snapshot for the identity, if any. -/
def lookupEntry : Generation → String × String → Option Response
  | [], _ => none
  | (k, v) :: rest, key => if k = key then some v else lookupEntry rest key

/-- `cache.put(request, response)`: overwrite the entry for the identity,
appending when absent. -/
def putEntry : Generation → String × String → Response → Generation
  | [], key, v => [(key, v)]
  | (k, w) :: rest, key, v =>
    if k = key then (key, v) :: rest else (k, w) :: putEntry rest key v

/-- Whether a generation of that name exists in the storage. -/
def hasGen : Store → String → Bool
  | [], _ => false
  | (m, _) :: rest, n => if m = n then true else hasGen rest n

/-- The generation of that name (empty when absent). -/
def getGen : Store → String → Generation
  | [], _ => []
  | (m, g) :: rest, n => if m = n then g else getGen rest n

/-- Replace the generation of that name (append when absent). -/
def setGen : Store → String → Generation → Store
  | [], n, g => [(n, g)]
  | (m, h) :: rest, n, g =>
    if m = n then (n, g) :: rest else (m, h) :: setGen rest n g

/-- `caches.open(name)`: create an empty generation when the name is absent. -/
def openCache (n : String) (s : Store) : Store :=
  if hasGen s n then s else s ++ [(n, [])]

/-- `caches.match(request)`: search every generation in order. -/
def cachesMatch : Store → String × String → Option Response
  | [], _ => none
  | (_, g) :: rest, key =>
    match lookupEntry g key with
    | some v => some v
    | none => cachesMatch rest key

/-- What a strategy hands back to `respondWith`: a response, the JS
`undefined` (no response), or a propagated exception. -/
inductive Outcome where
  | ok (resp : Response)
  | noResponse
  | err
  deriving DecidableEq, Repr

/-- The identity under which the offline fallback page would be cached. -/
def offlineKey : String × String := ("GET", "/offline.html")

/-- `cacheFirst`, src/sw.js lines 82-111: serve a cached snapshot when
present; otherwise fetch, store on status 200, and return the response;
on transport failure return `caches.match('/offline.html')` for
navigations and rethrow for everything else. -/
def cacheFirst (f : Request → Option Response) (s : Store) (r : Request) :
    Store × Outcome :=
  let s1 := openCache CACHE_NAME s
  let cache := getGen s1 CACHE_NAME
  match lookupEntry cache (reqKey r) with
  | some cached => (s1, .ok cached)
  | none =>
    match f r with
    | some response =>
      if response.status = 200 then
        (setGen s1 CACHE_NAME (putEntry cache (reqKey r) response), .ok response)
      else (s1, .ok response)
    | none =>
      if r.mode = "navigate" then
        match cachesMatch s1 offlineKey with
        | some v => (s1, .ok v)
        | none => (s1, .noResponse)
      else (s1, .err)

/-- `networkFirst`, src/sw.js lines 117-140: fetch, store on status 200
and return the response; on transport failure serve the cached snapshot
when present and rethrow otherwise. -/
def networkFirst (f : Request → Option Response) (s : Store) (r : Request) :
    Store × Outcome :=
  let s1 := openCache RUNTIME_CACHE s
  let cache := getGen s1 RUNTIME_CACHE
  match f r with
  | some response =>
    if response.status = 200 then
      (setGen s1 RUNTIME_CACHE (putEntry cache (reqKey r) response), .ok response)
    else (s1, .ok response)
  | none =>
    match lookupEntry cache (reqKey r) with
    | some cached => (s1, .ok cached)
    | none => (s1, .err)

/-- Whether a response counts as ok for `Cache.addAll` (2xx status). -/
def respOk (resp : Response) : Bool := 200 ≤ resp.status && resp.status ≤ 299

/-- The GET request issued by `cache.addAll` for one manifest asset. -/
def assetRequest (u : String) : Request :=
  { method := "GET", url := u, hostname := "app.example",
    origin := "https://app.example", mode := "no-cors" }

/-- Whether the fetch capability delivers an ok response for this asset. -/
def goodFetch (f : Request → Option Response) (a : String) : Bool :=
  match f (assetRequest a) with
  | some resp => respOk resp
  | none => false

/-- The fetch phase of `cache.addAll`: all assets in order, failing as a
whole when any fetch fails or yields a non-ok status. -/
def fetchAll (f : Request → Option Response) :
    List String → Option (List (String × Response))
  | [] => some []
  | a :: rest =>
    match f (assetRequest a) with
    | some resp =>
      if respOk resp then (fetchAll f rest).map (fun ps => (a, resp) :: ps)
      else none
    | none => none

/-- The write phase of `cache.addAll`: put every fetched snapshot under
its GET identity. -/
def installFold (ps : List (String × Response)) (g : Generation) : Generation :=
  ps.foldl (fun acc p => putEntry acc ("GET", p.1) p.2) g

/-- The install handler, src/sw.js lines 22-33: open the static generation
and `addAll` the manifest. The boolean is `true` exactly when the batch
succeeded, in which case `skipWaiting` runs (the worker may go active);
on failure nothing is written and the install promise rejects. -/
def install (f : Request → Option Response) (s : Store) : Store × Bool :=
  let s1 := openCache CACHE_NAME s
  match fetchAll f STATIC_ASSETS with
  | none => (s1, false)
  | some ps => (setGen s1 CACHE_NAME (installFold ps (getGen s1 CACHE_NAME)), true)

/-- The activate handler, src/sw.js lines 36-53: delete every generation
whose name is neither `CACHE_NAME` nor `RUNTIME_CACHE`. -/
def activate (s : Store) : Store :=
  s.filter (fun p => p.1 == CACHE_NAME || p.1 == RUNTIME_CACHE)

/-- The generation names the activate handler would delete from `s`. -/
def deletedNames (s : Store) : List String :=
  (s.map Prod.fst).filter (fun n => !(n == CACHE_NAME || n == RUNTIME_CACHE))

/-- The fetch listener dispatch: `none` when the event is not intercepted
(the listener returns without `respondWith`), otherwise the strategy result. -/
def handle (selfOrigin : String) (f : Request → Option Response)
    (s : Store) (r : Request) : Store × Option Outcome :=
  match classify selfOrigin r with
  | .ignored => (s, none)
  | .networkFirst =>
    let p := networkFirst f s r
    (p.1, some p.2)
  | .cacheFirst =>
    let p := cacheFirst f s r
    (p.1, some p.2)

/-- One service-worker event touching the cache storage: a fetch event
(with the network behaviour for that request), install, activate, or the
`clearCache` client message of src/sw.js lines 251-257. -/
inductive SWEvent where
  | fetchEv (r : Request) (netResp : Option Response)
  | installEv (f : Request → Option Response)
  | activateEv
  | clearEv

/-- Effect of one event on the cache storage. -/
def step (selfOrigin : String) (s : Store) : SWEvent → Store
  | .fetchEv r resp => (handle selfOrigin (fun _ => resp) s r).1
  | .installEv f => (install f s).1
  | .activateEv => activate s
  | .clearEv => []

/-- Effect of a sequence of events on the cache storage. -/
def run (selfOrigin : String) (s : Store) (evs : List SWEvent) : Store :=
  evs.foldl (step selfOrigin) s

/-- Every key of every stored entry has method GET. -/
def getOnly (s : Store) : Bool :=
  s.all (fun c => c.2.all (fun p => p.1.1 == "GET"))

/-- A network that answers every request with status 200 echoing the URL. -/
def echoFetch : Request → Option Response :=
  fun r => some { status := 200, body := r.url }

/-- A network that is down: every fetch is a transport failure. -/
def downFetch : Request → Option Response := fun _ => none

/-- A network where exactly the third manifest asset fails to fetch. -/
def flakyFetch : Request → Option Response :=
  fun r => if r.url = "/styles.css" then none else some { status := 200, body := r.url }

/-- Concrete snapshot of the app shell page. -/
def shellDoc : Response := { status := 200, body := "shell page" }

/-- Concrete snapshot of the offline fallback page. -/
def offlineDoc : Response := { status := 200, body := "offline page" }

/-- Concrete snapshot of an API response. -/
def apiDoc : Response := { status := 200, body := "verses payload" }

/-- Concrete snapshot of a stylesheet. -/
def cssDoc : Response := { status := 200, body := "/styles2.css" }

/-- A same-origin navigation request for a page present in the cache. -/
def hitReq : Request :=
  { method := "GET", url := "/index.html", hostname := "app.example",
    origin := "https://app.example", mode := "navigate" }

/-- A same-origin navigation request for a page absent from the cache. -/
def navReq : Request :=
  { method := "GET", url := "/reader", hostname := "app.example",
    origin := "https://app.example", mode := "navigate" }

/-- A same-origin non-navigation request absent from the cache. -/
def plainReq : Request :=
  { method := "GET", url := "/styles2.css", hostname := "app.example",
    origin := "https://app.example", mode := "no-cors" }

/-- A same-origin POST request. -/
def postReq : Request :=
  { method := "POST", url := "/favorite", hostname := "app.example",
    origin := "https://app.example", mode := "cors" }

/-- A GET request to the quran API host. -/
def apiReq : Request :=
  { method := "GET", url := "https://api.quran.com/v4/verses",
    hostname := "api.quran.com", origin := "https://api.quran.com",
    mode := "cors" }

/-- A storage whose static generation holds the shell page. -/
def hitStore : Store := [(CACHE_NAME, [(reqKey hitReq, shellDoc)])]

/-- A storage with an empty static generation. -/
def missStore : Store := [(CACHE_NAME, [])]

/-- A storage whose runtime generation holds one API snapshot. -/
def rtStore : Store := [(RUNTIME_CACHE, [(reqKey apiReq, apiDoc)])]

/-- Empty static generation, offline page stored in the runtime generation. -/
def runtimeOffline : Store :=
  [(CACHE_NAME, []), (RUNTIME_CACHE, [(offlineKey, offlineDoc)])]

/-- Empty static generation, empty runtime generation. -/
def runtimeEmpty : Store := [(CACHE_NAME, []), (RUNTIME_CACHE, [])]

theorem seqLeads_iff (a b : List Char) : seqLeads a b = true ↔ a <+: b := by
  induction a generalizing b with
  | nil => simp [seqLeads]
  | cons x xs ih =>
    cases b with
    | nil => simp [seqLeads]
    | cons y ys =>
      simp [seqLeads, Bool.and_eq_true, beq_iff_eq, ih, List.cons_prefix_cons]

theorem seqContains_iff (sub l : List Char) : seqContains sub l = true ↔ sub <:+: l := by
  induction l with
  | nil => simp [seqContains, seqLeads_iff]
  | cons b bs ih =>
    simp [seqContains, Bool.or_eq_true, seqLeads_iff, ih, List.infix_cons_iff]

theorem includes_iff (s sub : String) : includes s sub = true ↔ sub.data <:+: s.data :=
  seqContains_iff sub.data s.data

theorem isAPIRequest_iff (r : Request) :
    isAPIRequest r = true ↔ ∃ d ∈ apiDomains, d.data <:+: r.hostname.data := by
  simp [isAPIRequest, List.any_eq_true, includes_iff]

theorem isAllowedAPI_iff (r : Request) :
    isAllowedAPI r = true ↔ ∃ d ∈ allowedDomains, d.data <:+: r.hostname.data := by
  simp [isAllowedAPI, List.any_eq_true, includes_iff]

/-- C6: for every GET request whose cross-origin/allow-list check passes,
classification is network-first exactly when some configured API domain
occurs as a contiguous substring anywhere in the hostname, and cache-first
otherwise; allow-list matching is the same substring containment. -/
theorem classify_c6 (selfOrigin : String) (r : Request)
    (hget : r.method = "GET")
    (hallow : r.origin = selfOrigin ∨ isAllowedAPI r = true) :
    (classify selfOrigin r = RouteDecision.networkFirst ↔
      ∃ d ∈ apiDomains, d.data <:+: r.hostname.data) ∧
    (classify selfOrigin r = RouteDecision.cacheFirst ↔
      ¬ ∃ d ∈ apiDomains, d.data <:+: r.hostname.data) ∧
    (isAllowedAPI r = true ↔ ∃ d ∈ allowedDomains, d.data <:+: r.hostname.data) := by
  have hpass : ¬ (r.origin ≠ selfOrigin ∧ isAllowedAPI r = false) := by
    rcases hallow with h | h
    · exact fun hc => hc.1 h
    · exact fun hc => by simp [h] at hc
  refine ⟨?_, ?_, isAllowedAPI_iff r⟩
  · rw [← isAPIRequest_iff]
    unfold classify
    rw [if_neg (by simp [hget]), if_neg hpass]
    by_cases hapi : isAPIRequest r
    · simp [hapi]
    · simp [hapi]
  · rw [← isAPIRequest_iff]
    unfold classify
    rw [if_neg (by simp [hget]), if_neg hpass]
    by_cases hapi : isAPIRequest r
    · simp [hapi]
    · simp [hapi]

theorem getGen_append_empty (s : Store) (n m : String) (h : hasGen s n = false) :
    getGen (s ++ [(n, [])]) m = getGen s m := by
  induction s with
  | nil => by_cases hm : n = m <;> simp [getGen, hm]
  | cons p rest ih =>
    obtain ⟨q, g⟩ := p
    simp only [hasGen] at h
    by_cases hq : q = n
    · simp [hq] at h
    · simp only [hq, if_false] at h
      by_cases hm : q = m <;> simp [List.cons_append, getGen, hm, ih h]

theorem getGen_openCache (n m : String) (s : Store) :
    getGen (openCache n s) m = getGen s m := by
  unfold openCache
  by_cases h : hasGen s n
  · simp [h]
  · simp [h, getGen_append_empty s n m (by simpa using h)]

theorem openCache_of_hasGen {n : String} {s : Store} (h : hasGen s n = true) :
    openCache n s = s := by
  simp [openCache, h]

theorem hasGen_setGen (s : Store) (n : String) (g : Generation) :
    hasGen (setGen s n g) n = true := by
  induction s with
  | nil => simp [setGen, hasGen]
  | cons p rest ih =>
    obtain ⟨m, h⟩ := p
    by_cases hm : m = n <;> simp [setGen, hasGen, hm, ih]

theorem getGen_setGen (s : Store) (n : String) (g : Generation) :
    getGen (setGen s n g) n = g := by
  induction s with
  | nil => simp [setGen, getGen]
  | cons p rest ih =>
    obtain ⟨m, h⟩ := p
    by_cases hm : m = n <;> simp [setGen, getGen, hm, ih]

theorem getGen_setGen_other (s : Store) {n m : String} (g : Generation)
    (hnm : n ≠ m) : getGen (setGen s n g) m = getGen s m := by
  induction s with
  | nil => simp [setGen, getGen, hnm]
  | cons p rest ih =>
    obtain ⟨q, h⟩ := p
    by_cases hq : q = n
    · subst hq; simp [setGen, getGen, hnm]
    · simp only [setGen, hq, if_false]
      by_cases hm : q = m <;> simp [getGen, hm, ih]

theorem lookupEntry_putEntry_same (g : Generation) (k : String × String)
    (v : Response) : lookupEntry (putEntry g k v) k = some v := by
  induction g with
  | nil => simp [putEntry, lookupEntry]
  | cons p rest ih =>
    obtain ⟨q, w⟩ := p
    by_cases hq : q = k <;> simp [putEntry, lookupEntry, hq, ih]

theorem lookupEntry_putEntry_other (g : Generation) {k j : String × String}
    (v : Response) (hkj : k ≠ j) :
    lookupEntry (putEntry g k v) j = lookupEntry g j := by
  induction g with
  | nil => simp [putEntry, lookupEntry, hkj]
  | cons p rest ih =>
    obtain ⟨q, w⟩ := p
    by_cases hq : q = k
    · subst hq; simp [putEntry, lookupEntry, hkj]
    · simp only [putEntry, hq, if_false]
      by_cases hj : q = j <;> simp [lookupEntry, hj, ih]

/-- Witness for C6 at a concrete API request. -/
theorem classify_c6_witness :
    classify "https://app.example"
      { method := "GET", url := "https://api.quran.com/v4/x",
        hostname := "api.quran.com", origin := "https://api.quran.com",
        mode := "cors" } = RouteDecision.networkFirst :=
  ((classify_c6 "https://app.example"
      { method := "GET", url := "https://api.quran.com/v4/x",
        hostname := "api.quran.com", origin := "https://api.quran.com",
        mode := "cors" } rfl
      (Or.inr (by decide))).1).mpr
    ⟨"api.quran.com", by decide, List.infix_refl _⟩

theorem cacheFirst_hit_eq (f : Request → Option Response) (s : Store)
    (r : Request) (e : Response)
    (h : lookupEntry (getGen s CACHE_NAME) (reqKey r) = some e) :
    cacheFirst f s r = (openCache CACHE_NAME s, Outcome.ok e) := by
  unfold cacheFirst
  simp only [getGen_openCache, h]

/-- C1: for every GET request whose identity has an entry in the static
generation, cache-first returns that stored entry unchanged, and the result
is the same for every network fetch capability — the network is never
consulted. -/
theorem cacheFirst_c1 (f g : Request → Option Response) (s : Store)
    (r : Request) (e : Response)
    (_hget : r.method = "GET")
    (h : lookupEntry (getGen s CACHE_NAME) (reqKey r) = some e) :
    cacheFirst f s r = (openCache CACHE_NAME s, Outcome.ok e) ∧
    cacheFirst f s r = cacheFirst g s r :=
  ⟨cacheFirst_hit_eq f s r e h,
   (cacheFirst_hit_eq f s r e h).trans (cacheFirst_hit_eq g s r e h).symm⟩

/-- Witness for C1: the cached shell page is served with a dead network,
and the result equals the one with a live network. -/
theorem cacheFirst_c1_witness :
    cacheFirst downFetch hitStore hitReq
      = (openCache CACHE_NAME hitStore, Outcome.ok shellDoc) ∧
    cacheFirst downFetch hitStore hitReq = cacheFirst echoFetch hitStore hitReq :=
  cacheFirst_c1 downFetch echoFetch hitStore hitReq shellDoc rfl (by decide)

/-- C2: on a cache-first miss with a 200 network response, the snapshot is
stored in the static generation of the resulting storage, the fetched
response is returned, and a subsequent cache-first call for the same
identity — under any network — is a hit returning that very snapshot. -/
theorem cacheFirst_c2 (f g : Request → Option Response) (s : Store)
    (r : Request) (resp : Response)
    (hmiss : lookupEntry (getGen s CACHE_NAME) (reqKey r) = none)
    (hf : f r = some resp) (h200 : resp.status = 200) :
    (cacheFirst f s r).2 = Outcome.ok resp ∧
    lookupEntry (getGen (cacheFirst f s r).1 CACHE_NAME) (reqKey r) = some resp ∧
    cacheFirst g (cacheFirst f s r).1 r = ((cacheFirst f s r).1, Outcome.ok resp) := by
  have hstep : cacheFirst f s r =
      (setGen (openCache CACHE_NAME s) CACHE_NAME
        (putEntry (getGen s CACHE_NAME) (reqKey r) resp), Outcome.ok resp) := by
    unfold cacheFirst
    simp only [getGen_openCache, hmiss, hf, h200, if_true]
  have hlook : lookupEntry (getGen (cacheFirst f s r).1 CACHE_NAME) (reqKey r)
      = some resp := by
    rw [hstep]
    simp only [getGen_setGen, lookupEntry_putEntry_same]
  refine ⟨by rw [hstep], hlook, ?_⟩
  have hopen : openCache CACHE_NAME (cacheFirst f s r).1 = (cacheFirst f s r).1 := by
    apply openCache_of_hasGen
    rw [hstep]
    exact hasGen_setGen _ _ _
  rw [cacheFirst_hit_eq g (cacheFirst f s r).1 r resp hlook, hopen]

/-- Witness for C2 at a concrete stylesheet request against an empty
static generation. -/
theorem cacheFirst_c2_witness :
    (cacheFirst echoFetch missStore plainReq).2 = Outcome.ok cssDoc ∧
    lookupEntry (getGen (cacheFirst echoFetch missStore plainReq).1 CACHE_NAME)
      (reqKey plainReq) = some cssDoc ∧
    cacheFirst downFetch (cacheFirst echoFetch missStore plainReq).1 plainReq
      = ((cacheFirst echoFetch missStore plainReq).1, Outcome.ok cssDoc) :=
  cacheFirst_c2 echoFetch downFetch missStore plainReq cssDoc (by decide) rfl rfl

/-- C3: network-first passes every completed fetch through unchanged,
non-200 included, never falling back to the cache; on a transport failure
it serves the stored snapshot for the identity when one exists and
propagates the failure otherwise. -/
theorem networkFirst_c3 (f : Request → Option Response) (s : Store) (r : Request) :
    (∀ resp, f r = some resp → (networkFirst f s r).2 = Outcome.ok resp) ∧
    (f r = none → ∀ e, lookupEntry (getGen s RUNTIME_CACHE) (reqKey r) = some e →
      networkFirst f s r = (openCache RUNTIME_CACHE s, Outcome.ok e)) ∧
    (f r = none → lookupEntry (getGen s RUNTIME_CACHE) (reqKey r) = none →
      networkFirst f s r = (openCache RUNTIME_CACHE s, Outcome.err)) := by
  refine ⟨?_, ?_, ?_⟩
  · intro resp hf
    unfold networkFirst
    simp only [getGen_openCache, hf]
    by_cases h200 : resp.status = 200 <;> simp [h200]
  · intro hf e he
    unfold networkFirst
    simp only [getGen_openCache, hf, he]
  · intro hf he
    unfold networkFirst
    simp only [getGen_openCache, hf, he]

/-- Witness for C3: with the network down, the stored API snapshot is
served. -/
theorem networkFirst_c3_witness :
    networkFirst downFetch rtStore apiReq
      = (openCache RUNTIME_CACHE rtStore, Outcome.ok apiDoc) :=
  (networkFirst_c3 downFetch rtStore apiReq).2.1 rfl apiDoc (by decide)

theorem cacheFirst_store_shape (f : Request → Option Response) (s : Store)
    (r : Request) :
    (cacheFirst f s r).1 = openCache CACHE_NAME s ∨
    (∃ resp, f r = some resp ∧ resp.status = 200 ∧
      (cacheFirst f s r).1 = setGen (openCache CACHE_NAME s) CACHE_NAME
        (putEntry (getGen s CACHE_NAME) (reqKey r) resp)) := by
  unfold cacheFirst
  simp only [getGen_openCache]
  cases hl : lookupEntry (getGen s CACHE_NAME) (reqKey r) with
  | some e => exact Or.inl (by trivial)
  | none =>
    cases hf : f r with
    | some resp =>
      by_cases h200 : resp.status = 200
      · exact Or.inr ⟨resp, rfl, h200, by simp [h200]⟩
      · simp only [h200, if_false]
        exact Or.inl (by trivial)
    | none =>
      by_cases hnav : r.mode = "navigate"
      · simp only [hnav, if_true]
        cases cachesMatch (openCache CACHE_NAME s) offlineKey with
        | some v => exact Or.inl (by trivial)
        | none => exact Or.inl (by trivial)
      · simp only [hnav, if_false]
        exact Or.inl (by trivial)

theorem networkFirst_store_shape (f : Request → Option Response) (s : Store)
    (r : Request) :
    (networkFirst f s r).1 = openCache RUNTIME_CACHE s ∨
    (∃ resp, f r = some resp ∧ resp.status = 200 ∧
      (networkFirst f s r).1 = setGen (openCache RUNTIME_CACHE s) RUNTIME_CACHE
        (putEntry (getGen s RUNTIME_CACHE) (reqKey r) resp)) := by
  unfold networkFirst
  simp only [getGen_openCache]
  cases hf : f r with
  | some resp =>
    by_cases h200 : resp.status = 200
    · exact Or.inr ⟨resp, rfl, h200, by simp [h200]⟩
    · simp only [h200, if_false]
      exact Or.inl (by trivial)
  | none =>
    cases lookupEntry (getGen s RUNTIME_CACHE) (reqKey r) with
    | some e => exact Or.inl (by trivial)
    | none => exact Or.inl (by trivial)

theorem lookup_setGen_put (s : Store) (cn : String) (key : String × String)
    (resp : Response) (n : String) (k : String × String) :
    lookupEntry (getGen (setGen (openCache cn s) cn
      (putEntry (getGen s cn) key resp)) n) k = lookupEntry (getGen s n) k ∨
    (n = cn ∧ k = key ∧
      lookupEntry (getGen (setGen (openCache cn s) cn
        (putEntry (getGen s cn) key resp)) n) k = some resp) := by
  by_cases hn : n = cn
  · subst hn
    rw [getGen_setGen]
    by_cases hk : k = key
    · subst hk
      exact Or.inr ⟨rfl, rfl, lookupEntry_putEntry_same _ _ _⟩
    · left
      exact lookupEntry_putEntry_other _ _ (fun h => hk h.symm)
  · left
    rw [getGen_setGen_other _ _ (fun h => hn h.symm), getGen_openCache]

/-- C7: in both strategies the store can change at most at the identity of
the handled request, and only to the snapshot of a completed fetch whose
status is exactly 200; any fetch completing with another status leaves
every stored entry unchanged. -/
theorem status_c7 (f : Request → Option Response) (s : Store) (r : Request) :
    (∀ n k, lookupEntry (getGen (cacheFirst f s r).1 n) k
        = lookupEntry (getGen s n) k ∨
      (∃ resp, f r = some resp ∧ resp.status = 200 ∧ n = CACHE_NAME ∧
        k = reqKey r ∧
        lookupEntry (getGen (cacheFirst f s r).1 n) k = some resp)) ∧
    (∀ n k, lookupEntry (getGen (networkFirst f s r).1 n) k
        = lookupEntry (getGen s n) k ∨
      (∃ resp, f r = some resp ∧ resp.status = 200 ∧ n = RUNTIME_CACHE ∧
        k = reqKey r ∧
        lookupEntry (getGen (networkFirst f s r).1 n) k = some resp)) := by
  constructor
  · intro n k
    rcases cacheFirst_store_shape f s r with h | ⟨resp, hf, h200, h⟩
    · left
      rw [h, getGen_openCache]
    · rw [h]
      rcases lookup_setGen_put s CACHE_NAME (reqKey r) resp n k with h2 | ⟨hn, hk, h2⟩
      · exact Or.inl h2
      · exact Or.inr ⟨resp, hf, h200, hn, hk, h2⟩
  · intro n k
    rcases networkFirst_store_shape f s r with h | ⟨resp, hf, h200, h⟩
    · left
      rw [h, getGen_openCache]
    · rw [h]
      rcases lookup_setGen_put s RUNTIME_CACHE (reqKey r) resp n k with h2 | ⟨hn, hk, h2⟩
      · exact Or.inl h2
      · exact Or.inr ⟨resp, hf, h200, hn, hk, h2⟩

/-- Closed form of the network-first outcome: it depends only on the fetch
result and the runtime-generation entry for the identity. -/
theorem networkFirst_out (f : Request → Option Response) (s : Store) (r : Request) :
    (networkFirst f s r).2 =
      match f r with
      | some resp => Outcome.ok resp
      | none =>
        match lookupEntry (getGen s RUNTIME_CACHE) (reqKey r) with
        | some e => Outcome.ok e
        | none => Outcome.err := by
  unfold networkFirst
  simp only [getGen_openCache]
  cases f r with
  | some resp => by_cases h200 : resp.status = 200 <;> simp [h200]
  | none => cases lookupEntry (getGen s RUNTIME_CACHE) (reqKey r) <;> rfl

/-- Closed form of the cache-first outcome for non-navigation requests:
it depends only on the fetch result and the static-generation entry. -/
theorem cacheFirst_out (f : Request → Option Response) (s : Store) (r : Request)
    (hnav : r.mode ≠ "navigate") :
    (cacheFirst f s r).2 =
      match lookupEntry (getGen s CACHE_NAME) (reqKey r) with
      | some e => Outcome.ok e
      | none =>
        match f r with
        | some resp => Outcome.ok resp
        | none => Outcome.err := by
  unfold cacheFirst
  simp only [getGen_openCache]
  cases lookupEntry (getGen s CACHE_NAME) (reqKey r) with
  | some e => rfl
  | none =>
    cases f r with
    | some resp => by_cases h200 : resp.status = 200 <;> simp [h200]
    | none => simp [hnav]

/-- C10 counterexample: two storages with identical static generations on
which the same cache-first invocation yields different outcomes — the
offline-fallback lookup of a failed navigation reads the runtime
generation, so cache-first does not read only the static generation. -/
theorem strategies_c10_cx :
    getGen runtimeOffline CACHE_NAME = getGen runtimeEmpty CACHE_NAME ∧
    (cacheFirst downFetch runtimeOffline navReq).2
      ≠ (cacheFirst downFetch runtimeEmpty navReq).2 := by
  refine ⟨by decide, ?_⟩
  decide

/-- C10 (amended): each strategy writes only its own generation — so
network-first snapshots never land in the static generation and
cache-first snapshots never land in the runtime generation — and each
strategy's outcome reads only its own generation, except the
offline-fallback lookup of cache-first on failed navigations, which
searches all generations. -/
theorem strategies_c10 (f : Request → Option Response) (s : Store) (r : Request) :
    (∀ n, n ≠ CACHE_NAME → getGen (cacheFirst f s r).1 n = getGen s n) ∧
    (∀ n, n ≠ RUNTIME_CACHE → getGen (networkFirst f s r).1 n = getGen s n) ∧
    (∀ s', getGen s' RUNTIME_CACHE = getGen s RUNTIME_CACHE →
      (networkFirst f s' r).2 = (networkFirst f s r).2) ∧
    (r.mode ≠ "navigate" → ∀ s', getGen s' CACHE_NAME = getGen s CACHE_NAME →
      (cacheFirst f s' r).2 = (cacheFirst f s r).2) := by
  refine ⟨?_, ?_, ?_, ?_⟩
  · intro n hn
    rcases cacheFirst_store_shape f s r with h | ⟨resp, _, _, h⟩
    · rw [h, getGen_openCache]
    · rw [h, getGen_setGen_other _ _ (fun hh => hn hh.symm), getGen_openCache]
  · intro n hn
    rcases networkFirst_store_shape f s r with h | ⟨resp, _, _, h⟩
    · rw [h, getGen_openCache]
    · rw [h, getGen_setGen_other _ _ (fun hh => hn hh.symm), getGen_openCache]
  · intro s' hs
    rw [networkFirst_out, networkFirst_out, hs]
  · intro hnav s' hs
    rw [cacheFirst_out f s' r hnav, cacheFirst_out f s r hnav, hs]

/-- Witness for C10 (amended) at a concrete request: the runtime
generation is untouched by a cache-first write. -/
theorem strategies_c10_witness :
    getGen (cacheFirst echoFetch missStore plainReq).1 RUNTIME_CACHE
      = getGen missStore RUNTIME_CACHE :=
  (strategies_c10 echoFetch missStore plainReq).1 RUNTIME_CACHE (by decide)

/-- C5: activation keeps a generation name exactly when it already existed
and is the current static or runtime name; it is idempotent and a second
run deletes nothing. -/
theorem activate_c5 (s : Store) :
    (∀ n, hasGen (activate s) n
        = (hasGen s n && (n == CACHE_NAME || n == RUNTIME_CACHE))) ∧
    activate (activate s) = activate s ∧
    deletedNames (activate s) = [] := by
  refine ⟨?_, ?_, ?_⟩
  · intro n
    induction s with
    | nil => simp [activate, hasGen]
    | cons p rest ih =>
      obtain ⟨m, g⟩ := p
      by_cases hkeep : (m == CACHE_NAME || m == RUNTIME_CACHE) = true
      · have hact : activate ((m, g) :: rest) = (m, g) :: activate rest := by
          simp only [activate, List.filter_cons]
          rw [if_pos hkeep]
        rw [hact]
        by_cases hm : m = n
        · subst hm
          simp [hasGen, hkeep]
        · simp [hasGen, hm, ih]
      · have hact : activate ((m, g) :: rest) = activate rest := by
          simp only [activate, List.filter_cons]
          rw [if_neg hkeep]
        rw [hact, ih]
        by_cases hm : m = n
        · subst hm
          have hf : (m == CACHE_NAME || m == RUNTIME_CACHE) = false := by
            simpa using hkeep
          simp [hasGen, hf]
        · simp [hasGen, hm]
  · show List.filter (fun p => p.1 == CACHE_NAME || p.1 == RUNTIME_CACHE)
        (activate s) = activate s
    refine List.filter_eq_self.mpr ?_
    intro a ha
    have ha2 : a ∈ List.filter (fun p => p.1 == CACHE_NAME || p.1 == RUNTIME_CACHE) s := ha
    exact (List.mem_filter.mp ha2).2
  · unfold deletedNames
    refine List.filter_eq_nil_iff.mpr ?_
    intro a ha
    rw [List.mem_map] at ha
    obtain ⟨p, hp, rfl⟩ := ha
    have hp2 : p ∈ List.filter (fun q => q.1 == CACHE_NAME || q.1 == RUNTIME_CACHE) s := hp
    have hk : (p.1 == CACHE_NAME || p.1 == RUNTIME_CACHE) = true :=
      (List.mem_filter.mp hp2).2
    simp only [Bool.not_eq_true]
    rw [hk]
    rfl

theorem fetchAll_eq_none (f : Request → Option Response) (assets : List String)
    (h : assets.all (goodFetch f) = false) : fetchAll f assets = none := by
  induction assets with
  | nil => simp at h
  | cons a rest ih =>
    unfold fetchAll
    cases hf : f (assetRequest a) with
    | none => rfl
    | some resp =>
      show (if respOk resp = true
        then Option.map (fun ps => (a, resp) :: ps) (fetchAll f rest)
        else none) = none
      by_cases hok : respOk resp = true
      · rw [if_pos hok]
        have hga : goodFetch f a = true := by
          unfold goodFetch
          rw [hf]
          exact hok
        have hrest : rest.all (goodFetch f) = false := by
          simp only [List.all_cons, hga, Bool.true_and] at h
          exact h
        rw [ih hrest]
        rfl
      · rw [if_neg hok]

theorem fetchAll_eq_map (f : Request → Option Response) (assets : List String)
    (h : assets.all (goodFetch f) = true) :
    fetchAll f assets
      = some (assets.map (fun a => (a, (f (assetRequest a)).getD ⟨0, ""⟩))) := by
  induction assets with
  | nil => rfl
  | cons a rest ih =>
    simp only [List.all_cons, Bool.and_eq_true] at h
    obtain ⟨hga, hrest⟩ := h
    unfold goodFetch at hga
    unfold fetchAll
    cases hf : f (assetRequest a) with
    | none =>
      rw [hf] at hga
      simp at hga
    | some resp =>
      simp only [hf] at hga
      show (if respOk resp = true
        then Option.map (fun ps => (a, resp) :: ps) (fetchAll f rest)
        else none) = _
      rw [if_pos hga, ih hrest]
      simp [hf]

theorem putEntry_fresh (g : Generation) (k : String × String) (v : Response)
    (h : k ∉ g.map Prod.fst) : putEntry g k v = g ++ [(k, v)] := by
  induction g with
  | nil => rfl
  | cons p rest ih =>
    obtain ⟨q, w⟩ := p
    simp only [List.map_cons, List.mem_cons, not_or] at h
    obtain ⟨hq, hrest⟩ := h
    unfold putEntry
    rw [if_neg (fun he => hq he.symm), ih hrest]
    rfl

theorem installFold_notMem :
    ∀ (ps : List (String × Response)) (g : Generation) (a : String),
    a ∉ ps.map Prod.fst →
    lookupEntry (installFold ps g) ("GET", a) = lookupEntry g ("GET", a) := by
  intro ps
  induction ps with
  | nil => intro g a _; rfl
  | cons p rest ih =>
    intro g a h
    obtain ⟨b, w⟩ := p
    simp only [List.map_cons, List.mem_cons, not_or] at h
    obtain ⟨hb, hrest⟩ := h
    show lookupEntry (installFold rest (putEntry g ("GET", b) w)) ("GET", a)
      = lookupEntry g ("GET", a)
    rw [ih _ a hrest]
    exact lookupEntry_putEntry_other _ _
      (fun he => hb ((congrArg Prod.snd he).symm))

theorem installFold_mem :
    ∀ (ps : List (String × Response)) (g : Generation) (a : String) (resp : Response),
    (a, resp) ∈ ps → (ps.map Prod.fst).Nodup →
    lookupEntry (installFold ps g) ("GET", a) = some resp := by
  intro ps
  induction ps with
  | nil => intro g a resp h _; simp at h
  | cons p rest ih =>
    intro g a resp h hn
    obtain ⟨b, w⟩ := p
    simp only [List.map_cons, List.nodup_cons] at hn
    obtain ⟨hbn, hn2⟩ := hn
    rcases List.mem_cons.mp h with he | hmem
    · injection he with h1 h2
      subst h1
      subst h2
      show lookupEntry (installFold rest (putEntry g ("GET", a) resp)) ("GET", a)
        = some resp
      rw [installFold_notMem rest _ a hbn]
      exact lookupEntry_putEntry_same _ _ _
    · show lookupEntry (installFold rest (putEntry g ("GET", b) w)) ("GET", a)
        = some resp
      exact ih _ a resp hmem hn2

theorem installFold_keys :
    ∀ (ps : List (String × Response)) (g : Generation),
    (∀ p ∈ ps, (("GET", p.1) : String × String) ∉ g.map Prod.fst) →
    (ps.map Prod.fst).Nodup →
    (installFold ps g).map Prod.fst
      = g.map Prod.fst ++ ps.map (fun p => (("GET", p.1) : String × String)) := by
  intro ps
  induction ps with
  | nil => intro g _ _; simp [installFold]
  | cons p rest ih =>
    intro g hd hn
    obtain ⟨b, w⟩ := p
    simp only [List.map_cons, List.nodup_cons] at hn
    obtain ⟨hbn, hn2⟩ := hn
    have hfresh : (("GET", b) : String × String) ∉ g.map Prod.fst :=
      hd (b, w) (List.mem_cons_self _ _)
    show (installFold rest (putEntry g ("GET", b) w)).map Prod.fst = _
    rw [putEntry_fresh g _ w hfresh]
    rw [ih (g ++ [(("GET", b), w)]) ?_ hn2]
    · simp
    · intro q hq
      simp only [List.map_append, List.mem_append, List.map_cons, List.map_nil,
        List.mem_singleton, not_or]
      refine ⟨hd q (List.mem_cons_of_mem _ hq), ?_⟩
      intro he
      have hq1 : q.1 = b := congrArg Prod.snd he
      exact hbn (hq1 ▸ List.mem_map_of_mem Prod.fst hq)

/-- C4: install is all-or-nothing. When any manifest asset fails to fetch,
no entry of any generation changes (no asset write at all, later ones
included) and the install reports failure, so `skipWaiting` — the step
toward activation — does not run. Re-running install with a working fetch
reports success, stores the fetched snapshot of every manifest asset, and
starting from an empty storage the static generation holds exactly one
entry per manifest asset. -/
theorem install_c4 (f g : Request → Option Response) (s : Store)
    (hfail : STATIC_ASSETS.all (goodFetch f) = false)
    (hgood : STATIC_ASSETS.all (goodFetch g) = true) :
    (install f s).2 = false ∧
    (∀ n k, lookupEntry (getGen (install f s).1 n) k = lookupEntry (getGen s n) k) ∧
    (install g (install f s).1).2 = true ∧
    (∀ a ∈ STATIC_ASSETS,
      lookupEntry (getGen (install g (install f s).1).1 CACHE_NAME) ("GET", a)
        = g (assetRequest a)) ∧
    (s = [] →
      (getGen (install g (install f s).1).1 CACHE_NAME).map Prod.fst
        = STATIC_ASSETS.map (fun a => (("GET", a) : String × String))) := by
  have hinstf : install f s = (openCache CACHE_NAME s, false) := by
    unfold install
    rw [fetchAll_eq_none f STATIC_ASSETS hfail]
  have hpsg : fetchAll g STATIC_ASSETS
      = some (STATIC_ASSETS.map (fun a => (a, (g (assetRequest a)).getD ⟨0, ""⟩))) :=
    fetchAll_eq_map g STATIC_ASSETS hgood
  have hkeysg : ((STATIC_ASSETS.map
      (fun a => (a, (g (assetRequest a)).getD ⟨0, ""⟩))).map Prod.fst)
      = STATIC_ASSETS := by
    rw [List.map_map]
    exact List.map_id'' (fun x => rfl) _
  have hnodup : ((STATIC_ASSETS.map
      (fun a => (a, (g (assetRequest a)).getD ⟨0, ""⟩))).map Prod.fst).Nodup := by
    rw [hkeysg]
    decide
  have hinstg : install g (install f s).1
      = (setGen (openCache CACHE_NAME (install f s).1) CACHE_NAME
          (installFold (STATIC_ASSETS.map
            (fun a => (a, (g (assetRequest a)).getD ⟨0, ""⟩)))
            (getGen (install f s).1 CACHE_NAME)), true) := by
    simp only [install, hpsg, getGen_openCache]
  refine ⟨by rw [hinstf], ?_, by rw [hinstg], ?_, ?_⟩
  · intro n k
    rw [hinstf, getGen_openCache]
  · intro a ha
    rw [hinstg]
    simp only [getGen_setGen]
    have hmem : (a, (g (assetRequest a)).getD ⟨0, ""⟩) ∈
        STATIC_ASSETS.map (fun a => (a, (g (assetRequest a)).getD ⟨0, ""⟩)) :=
      List.mem_map_of_mem _ ha
    rw [installFold_mem _ _ a _ hmem hnodup]
    have hga : goodFetch g a = true := by
      rw [List.all_eq_true] at hgood
      exact hgood a ha
    unfold goodFetch at hga
    cases hg : g (assetRequest a) with
    | none => rw [hg] at hga; simp at hga
    | some resp => simp [hg]
  · intro hs
    subst hs
    rw [hinstg, hinstf]
    simp only [getGen_setGen]
    have hempty : getGen (openCache CACHE_NAME ([] : Store)) CACHE_NAME = [] := rfl
    rw [hempty]
    rw [installFold_keys _ [] (by simp) hnodup]
    simp

/-- Witness for C4: the network failing exactly on the third manifest
asset makes install fail and write nothing; retrying on a healthy network
succeeds. -/
theorem install_c4_witness :
    (install flakyFetch []).2 = false ∧
    (∀ n k, lookupEntry (getGen (install flakyFetch []).1 n) k
      = lookupEntry (getGen ([] : Store) n) k) ∧
    (install echoFetch (install flakyFetch []).1).2 = true ∧
    (∀ a ∈ STATIC_ASSETS,
      lookupEntry (getGen (install echoFetch (install flakyFetch []).1).1 CACHE_NAME)
        ("GET", a) = echoFetch (assetRequest a)) ∧
    (([] : Store) = [] →
      (getGen (install echoFetch (install flakyFetch []).1).1 CACHE_NAME).map Prod.fst
        = STATIC_ASSETS.map (fun a => (("GET", a) : String × String))) :=
  install_c4 flakyFetch echoFetch [] (by decide) (by decide)

theorem getOnly_getGen :
    ∀ (s : Store) (n : String), getOnly s = true →
    (getGen s n).all (fun p => p.1.1 == "GET") = true := by
  intro s
  induction s with
  | nil => intro n _; rfl
  | cons p rest ih =>
    intro n h
    obtain ⟨m, g⟩ := p
    simp only [getOnly, List.all_cons, Bool.and_eq_true] at h
    obtain ⟨hg, hrest⟩ := h
    show (if m = n then g else getGen rest n).all _ = true
    by_cases hm : m = n
    · rw [if_pos hm]
      exact hg
    · rw [if_neg hm]
      exact ih n hrest

theorem getOnly_openCache (n : String) (s : Store) (h : getOnly s = true) :
    getOnly (openCache n s) = true := by
  unfold openCache
  by_cases hh : hasGen s n
  · rw [if_pos hh]
    exact h
  · rw [if_neg hh]
    unfold getOnly at h ⊢
    rw [List.all_append, h]
    rfl

theorem getOnly_setGen :
    ∀ (s : Store) (n : String) (g : Generation), getOnly s = true →
    g.all (fun p => p.1.1 == "GET") = true → getOnly (setGen s n g) = true := by
  intro s
  induction s with
  | nil =>
    intro n g _ hg
    simp [setGen, getOnly, hg]
  | cons p rest ih =>
    intro n g h hg
    obtain ⟨m, gen⟩ := p
    simp only [getOnly, List.all_cons, Bool.and_eq_true] at h
    obtain ⟨hgen, hrest⟩ := h
    show getOnly (if m = n then (n, g) :: rest else (m, gen) :: setGen rest n g) = true
    by_cases hm : m = n
    · rw [if_pos hm]
      simp only [getOnly, List.all_cons, Bool.and_eq_true]
      exact ⟨hg, hrest⟩
    · rw [if_neg hm]
      simp only [getOnly, List.all_cons, Bool.and_eq_true]
      exact ⟨hgen, ih n g hrest hg⟩

theorem getOnly_putEntry :
    ∀ (g : Generation) (k : String × String) (v : Response),
    g.all (fun p => p.1.1 == "GET") = true → k.1 = "GET" →
    (putEntry g k v).all (fun p => p.1.1 == "GET") = true := by
  intro g
  induction g with
  | nil =>
    intro k v _ hk
    simp [putEntry, hk]
  | cons p rest ih =>
    intro k v h hk
    obtain ⟨q, w⟩ := p
    simp only [List.all_cons, Bool.and_eq_true] at h
    obtain ⟨hq, hrest⟩ := h
    show ((if q = k then (k, v) :: rest else (q, w) :: putEntry rest k v)).all _ = true
    by_cases hqk : q = k
    · rw [if_pos hqk]
      simp only [List.all_cons, Bool.and_eq_true]
      exact ⟨by simp [hk], hrest⟩
    · rw [if_neg hqk]
      simp only [List.all_cons, Bool.and_eq_true]
      exact ⟨hq, ih k v hrest hk⟩

theorem getOnly_installFold :
    ∀ (ps : List (String × Response)) (g : Generation),
    g.all (fun p => p.1.1 == "GET") = true →
    (installFold ps g).all (fun p => p.1.1 == "GET") = true := by
  intro ps
  induction ps with
  | nil => intro g hg; exact hg
  | cons p rest ih =>
    intro g hg
    show (installFold rest (putEntry g ("GET", p.1) p.2)).all _ = true
    exact ih _ (getOnly_putEntry g _ p.2 hg rfl)

theorem install_store_shape (f : Request → Option Response) (s : Store) :
    (install f s).1 = openCache CACHE_NAME s ∨
    ∃ ps, (install f s).1 = setGen (openCache CACHE_NAME s) CACHE_NAME
      (installFold ps (getGen s CACHE_NAME)) := by
  unfold install
  cases hfa : fetchAll f STATIC_ASSETS with
  | none => exact Or.inl (by trivial)
  | some ps =>
    right
    refine ⟨ps, ?_⟩
    show setGen (openCache CACHE_NAME s) CACHE_NAME
      (installFold ps (getGen (openCache CACHE_NAME s) CACHE_NAME)) = _
    rw [getGen_openCache]

theorem getOnly_cacheFirst (f : Request → Option Response) (s : Store)
    (r : Request) (h : getOnly s = true) (hr : r.method = "GET") :
    getOnly (cacheFirst f s r).1 = true := by
  rcases cacheFirst_store_shape f s r with hs | ⟨resp, _, _, hs⟩
  · rw [hs]
    exact getOnly_openCache _ _ h
  · rw [hs]
    refine getOnly_setGen _ _ _ (getOnly_openCache _ _ h) ?_
    exact getOnly_putEntry _ _ _ (getOnly_getGen s CACHE_NAME h) hr

theorem getOnly_networkFirst (f : Request → Option Response) (s : Store)
    (r : Request) (h : getOnly s = true) (hr : r.method = "GET") :
    getOnly (networkFirst f s r).1 = true := by
  rcases networkFirst_store_shape f s r with hs | ⟨resp, _, _, hs⟩
  · rw [hs]
    exact getOnly_openCache _ _ h
  · rw [hs]
    refine getOnly_setGen _ _ _ (getOnly_openCache _ _ h) ?_
    exact getOnly_putEntry _ _ _ (getOnly_getGen s RUNTIME_CACHE h) hr

theorem getOnly_install (f : Request → Option Response) (s : Store)
    (h : getOnly s = true) : getOnly (install f s).1 = true := by
  rcases install_store_shape f s with hs | ⟨ps, hs⟩
  · rw [hs]
    exact getOnly_openCache _ _ h
  · rw [hs]
    refine getOnly_setGen _ _ _ (getOnly_openCache _ _ h) ?_
    exact getOnly_installFold ps _ (getOnly_getGen s CACHE_NAME h)

theorem classify_get {so : String} {r : Request}
    (h : classify so r ≠ RouteDecision.ignored) : r.method = "GET" := by
  by_contra hm
  exact h (by unfold classify; rw [if_pos hm])

theorem getOnly_handle (so : String) (f : Request → Option Response)
    (s : Store) (r : Request) (h : getOnly s = true) :
    getOnly (handle so f s r).1 = true := by
  unfold handle
  cases hc : classify so r with
  | ignored => exact h
  | networkFirst =>
    exact getOnly_networkFirst f s r h (classify_get (by rw [hc]; intro hh; cases hh))
  | cacheFirst =>
    exact getOnly_cacheFirst f s r h (classify_get (by rw [hc]; intro hh; cases hh))

theorem getOnly_step (so : String) (s : Store) (e : SWEvent)
    (h : getOnly s = true) : getOnly (step so s e) = true := by
  cases e with
  | fetchEv r resp => exact getOnly_handle so _ s r h
  | installEv f => exact getOnly_install f s h
  | activateEv =>
    show getOnly (activate s) = true
    unfold getOnly at h ⊢
    unfold activate
    rw [List.all_eq_true] at h ⊢
    intro c hc
    exact h c (List.mem_of_mem_filter hc)
  | clearEv => rfl

theorem getOnly_run (so : String) :
    ∀ (evs : List SWEvent) (s : Store), getOnly s = true →
    getOnly (run so s evs) = true := by
  intro evs
  induction evs with
  | nil => intro s h; exact h
  | cons e rest ih =>
    intro s h
    show getOnly (run so (step so s e) rest) = true
    exact ih _ (getOnly_step so s e h)

/-- C8: a non-GET request is never intercepted — the fetch listener
returns without `respondWith` and leaves the storage untouched — and after
any sequence of service-worker events starting from an empty storage, the
identity of a non-GET request is never a stored entry key in any
generation. -/
theorem nonGet_c8 (selfOrigin : String) (r : Request)
    (hr : r.method ≠ "GET") :
    (∀ f s, handle selfOrigin f s r = (s, none)) ∧
    (∀ evs n, reqKey r ∉ (getGen (run selfOrigin [] evs) n).map Prod.fst) := by
  constructor
  · intro f s
    have hc : classify selfOrigin r = RouteDecision.ignored := by
      unfold classify
      rw [if_pos hr]
    unfold handle
    rw [hc]
  · intro evs n hmem
    have hg : getOnly (run selfOrigin [] evs) = true :=
      getOnly_run selfOrigin evs [] rfl
    have hall := getOnly_getGen (run selfOrigin [] evs) n hg
    rw [List.all_eq_true] at hall
    rw [List.mem_map] at hmem
    obtain ⟨p, hp, hpk⟩ := hmem
    have hme : p.1.1 = "GET" := by simpa using hall p hp
    rw [hpk] at hme
    exact hr hme

/-- Witness for C8: a POST request is not intercepted and its identity is
absent after an install followed by an activate. -/
theorem nonGet_c8_witness :
    handle "https://app.example" echoFetch missStore postReq = (missStore, none) ∧
    reqKey postReq ∉ (getGen (run "https://app.example" []
      [SWEvent.installEv echoFetch, SWEvent.activateEv]) CACHE_NAME).map Prod.fst := by
  have h := nonGet_c8 "https://app.example" postReq (by decide)
  exact ⟨h.1 echoFetch missStore,
    h.2 [SWEvent.installEv echoFetch, SWEvent.activateEv] CACHE_NAME⟩

/-- C9: the code means to serve the offline page on a failed navigation
(src/sw.js lines 104-107) but `/offline.html` is missing from
`STATIC_ASSETS`, so after a successful fresh install the fallback lookup
finds nothing and the handler returns `undefined` — neither the offline
document nor a propagated failure. Failed non-navigation fetches do
propagate, and the offline document is served when some generation holds
it. -/
theorem offline_c9 :
    (install echoFetch []).2 = true ∧
    lookupEntry (getGen (install echoFetch []).1 CACHE_NAME) offlineKey = none ∧
    (cacheFirst downFetch (install echoFetch []).1 navReq).2 = Outcome.noResponse ∧
    (cacheFirst downFetch (install echoFetch []).1 plainReq).2 = Outcome.err ∧
    (cacheFirst downFetch runtimeOffline navReq).2 = Outcome.ok offlineDoc := by
  refine ⟨?_, ?_, ?_, ?_, ?_⟩ <;> decide

end SW
